import Mathlib

/-!
# SPDTools — verification of the DDR4 SPD codec core

Shallow embedding of the codec core of the SPDTools repository
(`src/core/model.py`, `src/core/parser/ddr4.py`,
`src/core/parser/manufacturers.py`, `src/utils/constants.py`,
`src/gui/tabs/timing.py`, `src/gui/tabs/details.py`), together with
theorems settling the specification claims about it.

Conventions of the embedding:
* Python machine integers are `ℕ`/`ℤ`; Python floats are modelled as exact
  rationals `ℚ` (the codec arithmetic is small-magnitude and exact on the
  values of interest).
* Python `int(x)` truncates toward zero (`pyInt`); Python `//` and `%` on
  ints are floor division and nonnegative remainder, which agree with
  Lean's `Int./` and `Int.%`; `x & (2^k - 1)` is `% 2^k`, `x >> k` is
  floor division by `2^k`.
* The 512-byte SPD image is a total function `ℕ → ℕ`; writes go through
  the data model's `set_byte`, which validates offset and value and
  leaves the image unchanged on failure.
-/

set_option maxRecDepth 100000

namespace SPDTools

/-- Python `int(q)` on a real value: truncation toward zero. -/
def pyInt (q : ℚ) : ℤ := if 0 ≤ q then ⌊q⌋ else ⌈q⌉

/-- Python `round(q)` (round half to even), used by the parser for cycle
counts. -/
def pyRound (q : ℚ) : ℤ :=
  let f := ⌊q⌋
  let r := q - f
  if r < 1/2 then f
  else if 1/2 < r then f + 1
  else if f % 2 = 0 then f else f + 1

/-- `DDR4Parser._signed_byte`: two's-complement reading of a byte. -/
def signedByte (v : ℕ) : ℤ := if v < 128 then (v : ℤ) else (v : ℤ) - 256

/-! ## Constants (`src/utils/constants.py`) -/

def SPD_SIZE : ℕ := 512

/-- Medium timebase in picoseconds. -/
def MTB : ℕ := 125

/-- Fine timebase in picoseconds. -/
def FTB : ℕ := 1

/-- `SPEED_GRADES`: ordered `(min_ps, max_ps) → MT/s` bins, in the
source's dict insertion order. -/
def SPEED_GRADES : List ((ℕ × ℕ) × ℕ) :=
  [((625, 682), 3200),
   ((682, 750), 2933),
   ((750, 833), 2666),
   ((833, 938), 2400),
   ((938, 1071), 2133),
   ((1071, 1250), 1866),
   ((1250, 1500), 1600)]

/-! ## Byte-level image and the data model's byte write
(`src/core/model.py`, effect of `set_byte`/`get_byte` on the image) -/

/-- A 512-byte SPD image, as a total function from offsets to byte
values. -/
abbrev Img : Type := ℕ → ℕ

/-- Effect of `SPDDataModel.set_byte` on the image: validates
`0 ≤ offset < SPD_SIZE` and `0 ≤ value ≤ 255` and leaves the image
unchanged when validation fails. -/
def Img.setByte (img : Img) (off : ℕ) (v : ℤ) : Img :=
  if off < SPD_SIZE ∧ 0 ≤ v ∧ v ≤ 255 then
    fun i => if i = off then v.toNat else img i
  else img

/-- `SPDDataModel.get_byte` on the image: out-of-range reads return 0. -/
def Img.getByte (img : Img) (off : ℕ) : ℕ :=
  if off < SPD_SIZE then img off else 0

/-! ## Timing codec
Encode: `TimingTab._write_timing` (`src/gui/tabs/timing.py`);
decode: `DDR4Parser.parse_timings` (`src/core/parser/ddr4.py`).
Byte offsets are the `SPD_BYTES` constants:
TCK_MIN=18, TAA_MIN=24, TRCD_MIN=25, TRP_MIN=26, TRAS_TRC_HIGH=27,
TRAS_MIN_LOW=28, TRC_MIN_LOW=29, TCK_MIN_FTB=125, TAA_MIN_FTB=123,
TRCD_MIN_FTB=122, TRP_MIN_FTB=121, TRC_MIN_FTB=120. -/

/-- The timing fields handled by `_write_timing`. -/
inductive TKey where
  | tCK | tAA | tRCD | tRP | tRAS | tRC
deriving DecidableEq

/-- `_write_timing`'s `mtb_value = int(value_ps / MTB)` with
`value_ps = value_ns * 1000`. -/
def encMtb (value_ns : ℚ) : ℤ := pyInt (value_ns * 1000 / (MTB : ℚ))

/-- `_write_timing`'s `ftb_value = int((value_ps - mtb_value * MTB) / FTB)`. -/
def encFtb0 (value_ns : ℚ) : ℤ :=
  pyInt ((value_ns * 1000 - (encMtb value_ns : ℚ) * (MTB : ℚ)) / (FTB : ℚ))

/-- `_write_timing`'s signed-byte wrapping of `ftb_value`. -/
def encFtbWrapped (value_ns : ℚ) : ℤ :=
  if encFtb0 value_ns > 127 then encFtb0 value_ns - 256
  else if encFtb0 value_ns < -128 then encFtb0 value_ns + 256
  else encFtb0 value_ns

/-- `_write_timing`'s `ftb_byte = ftb_value & 0xFF`. -/
def encFtbByte (value_ns : ℚ) : ℤ := encFtbWrapped value_ns % 256

/-- `TimingTab._write_timing`: encode a nanosecond value into the image.
`int()` truncates; the fine value is wrapped into a two's-complement
byte with `& 0xFF`; `tRAS`/`tRC` read-modify-write the shared byte 27
(`current & 0xF0 | high_nibble` resp. `current & 0x0F | nibble << 4`). -/
def writeTiming (key : TKey) (value_ns : ℚ) (img : Img) : Img :=
  match key with
  | .tCK => (img.setByte 18 (encMtb value_ns)).setByte 125 (encFtbByte value_ns)
  | .tAA => (img.setByte 24 (encMtb value_ns)).setByte 123 (encFtbByte value_ns)
  | .tRCD => (img.setByte 25 (encMtb value_ns)).setByte 122 (encFtbByte value_ns)
  | .tRP => (img.setByte 26 (encMtb value_ns)).setByte 121 (encFtbByte value_ns)
  | .tRAS =>
      let high_nibble : ℕ := ((encMtb value_ns / 256) % 16).toNat
      let low_byte : ℕ := (encMtb value_ns % 256).toNat
      let new27 : ℕ := (img.getByte 27 &&& 0xF0) ||| high_nibble
      ((img.setByte 27 (new27 : ℤ)).setByte 28 (low_byte : ℤ))
  | .tRC =>
      let high_nibble : ℕ := ((encMtb value_ns / 256) % 16).toNat
      let low_byte : ℕ := (encMtb value_ns % 256).toNat
      let new27 : ℕ := (img.getByte 27 &&& 0x0F) ||| (high_nibble <<< 4)
      (((img.setByte 27 (new27 : ℤ)).setByte 29 (low_byte : ℤ)).setByte 120
        (encFtbByte value_ns))

/-- `DDR4Parser.parse_timings`, the branch for each field written by
`_write_timing`, in nanoseconds. -/
def parseTiming (key : TKey) (img : Img) : ℚ :=
  match key with
  | .tCK => ((img 18 : ℚ) * (MTB : ℚ) + (signedByte (img 125) : ℚ) * (FTB : ℚ)) / 1000
  | .tAA => ((img 24 : ℚ) * (MTB : ℚ) + (signedByte (img 123) : ℚ) * (FTB : ℚ)) / 1000
  | .tRCD => ((img 25 : ℚ) * (MTB : ℚ) + (signedByte (img 122) : ℚ) * (FTB : ℚ)) / 1000
  | .tRP => ((img 26 : ℚ) * (MTB : ℚ) + (signedByte (img 121) : ℚ) * (FTB : ℚ)) / 1000
  | .tRAS => ((((img 27 &&& 0x0F) <<< 8) + img 28 : ℚ)) * (MTB : ℚ) / 1000
  | .tRC => ((((img 27 >>> 4) <<< 8) + img 29 : ℚ) * (MTB : ℚ)
              + (signedByte (img 120) : ℚ) * (FTB : ℚ)) / 1000

/-- Largest MTB count a field can store: one byte for the simple fields,
a high nibble plus a low byte for `tRAS`/`tRC`. -/
def maxMtb : TKey → ℕ
  | .tRAS => 4095
  | .tRC => 4095
  | _ => 255

/-- Whether `_write_timing` writes a fine-timebase byte for the field
(`tRAS` has none). -/
def hasFtb : TKey → Bool
  | .tRAS => false
  | _ => true

/-! ## Speed grades (`DDR4Parser.parse_speed_grade`) -/

/-- First matching bin of `SPEED_GRADES` for a tCK picosecond value
(the source iterates the dict in insertion order). -/
def speedGradeLookup (tck_ps : ℤ) : Option ℕ :=
  (SPEED_GRADES.find? fun b => decide ((b.1.1 : ℤ) ≤ tck_ps ∧ tck_ps < (b.1.2 : ℤ))).map
    Prod.snd

/-- `DDR4Parser.parse_speed_grade` as a function of the decoded tCK in
picoseconds: nonpositive → 0; first matching bin; otherwise the generic
`int(2000000 / tck_ps)` fallback. -/
def parseSpeedGradePs (tck_ps : ℤ) : ℤ :=
  if tck_ps ≤ 0 then 0
  else
    match speedGradeLookup tck_ps with
    | some speed => (speed : ℤ)
    | none => pyInt (2000000 / (tck_ps : ℚ))

/-- `DDR4Parser.parse_speed_grade` on an image. -/
def parseSpeedGrade (img : Img) : ℤ :=
  parseSpeedGradePs ((img 18 : ℤ) * (MTB : ℤ) + signedByte (img 125) * (FTB : ℤ))

/-! ## Manufacturer registry (`src/core/parser/manufacturers.py`) -/

/-- `MANUFACTURERS`: the `(bank, 7-bit id) → name` table, in the
source's dict insertion order. -/
def MANUFACTURERS : List ((ℕ × ℕ) × String) :=
  [((1, 0x2C), "Micron Technology"),
   ((1, 0x89), "Intel"),
   ((1, 0xCE), "Samsung"),
   ((1, 0xAD), "SK Hynix"),
   ((1, 0x01), "AMD"),
   ((1, 0x98), "Toshiba"),
   ((1, 0xC1), "Infineon"),
   ((1, 0x20), "STMicroelectronics"),
   ((1, 0x1C), "Mitsubishi"),
   ((1, 0x04), "Fujitsu"),
   ((1, 0x07), "Hitachi"),
   ((1, 0xDA), "Winbond"),
   ((1, 0xC2), "Macronix"),
   ((1, 0xBF), "SST"),
   ((1, 0x9D), "ISSI"),
   ((1, 0x37), "AMIC"),
   ((1, 0x8C), "EON"),
   ((1, 0xA1), "Fudan Microelectronics"),
   ((1, 0x1F), "Atmel"),
   ((2, 0x9E), "Corsair"),
   ((2, 0xB0), "Sharp"),
   ((2, 0xBA), "PNY"),
   ((2, 0x4F), "Transcend"),
   ((2, 0xFE), "ELPIDA"),
   ((2, 0x0B), "Nanya"),
   ((2, 0x45), "SanDisk"),
   ((2, 0x94), "ESMT"),
   ((2, 0x51), "Qimonda"),
   ((2, 0x7A), "Apacer"),
   ((2, 0x83), "Kingmax"),
   ((2, 0x25), "Kingmax"),
   ((2, 0xF7), "Silicon Power"),
   ((2, 0x98), "Kingston"),
   ((3, 0x9B), "Mushkin"),
   ((3, 0xCB), "A-DATA"),
   ((3, 0xF1), "Avant"),
   ((3, 0xCD), "G.Skill"),
   ((3, 0xEF), "Team Group"),
   ((3, 0x7F), "Patriot"),
   ((3, 0x4A), "GeIL"),
   ((3, 0x08), "Crucial"),
   ((4, 0x03), "OCZ"),
   ((4, 0xEF), "Crucial (Lexar)"),
   ((4, 0x34), "Super Talent"),
   ((4, 0x43), "Ramaxel"),
   ((4, 0x85), "Spectek"),
   ((4, 0xC8), "Aeneon"),
   ((5, 0x51), "SMART"),
   ((5, 0x57), "ATRM"),
   ((5, 0x9A), "Swissbit"),
   ((5, 0xB3), "ATP Electronics"),
   ((5, 0x94), "Innodisk"),
   ((6, 0x43), "Ramaxel Technology"),
   ((6, 0xCE), "Samsung"),
   ((6, 0x51), "SMART Modular"),
   ((6, 0x85), "Wintec"),
   ((6, 0xC1), "V-Color"),
   ((7, 0xCE), "Samsung"),
   ((7, 0xAD), "SK Hynix"),
   ((7, 0x2C), "Micron"),
   ((8, 0xCE), "Samsung"),
   ((8, 0xC8), "Shanghai Huahong"),
   ((8, 0x21), "Longsys"),
   ((9, 0xCE), "Samsung"),
   ((9, 0x2C), "Micron"),
   ((9, 0xAD), "SK Hynix"),
   ((9, 0x48), "UniIC"),
   ((9, 0xC9), "ChangXin Memory (CXMT)"),
   ((9, 0xCA), "Yangtze Memory (YMTC)")]

/-- `decode_bank_id`: the continuation-code "loop" breaks after its
first iteration and its body is unreachable when `first_byte ≠ 0x7F`,
so the continuation count stays 0 in every branch. -/
def decodeBankId (first_byte second_byte : ℕ) : ℕ × ℕ :=
  let bank : ℕ :=
    if first_byte = 0x7F then 1
    else
      let continuation_count := 0
      continuation_count + 1
  let manufacturer_id := second_byte &&& 0x7F
  (bank, manufacturer_id)

/-- The bank-agnostic direct scan in `get_manufacturer_name`: first
entry whose id equals the raw second byte or the second byte with the
parity bit stripped. -/
def findDirect (second_byte : ℕ) : List ((ℕ × ℕ) × String) → Option String
  | [] => none
  | ((_, mid), name) :: rest =>
      if second_byte = mid ∨ (second_byte &&& 0x7F) = mid then some name
      else findDirect second_byte rest

/-- Uppercase hex digit, for the `Unknown (0x....)` rendering. -/
def hexDigit (n : ℕ) : String :=
  match n with
  | 0 => "0" | 1 => "1" | 2 => "2" | 3 => "3" | 4 => "4"
  | 5 => "5" | 6 => "6" | 7 => "7" | 8 => "8" | 9 => "9"
  | 10 => "A" | 11 => "B" | 12 => "C" | 13 => "D" | 14 => "E"
  | _ => "F"

/-- Python `f"{b:02X}"` for a byte value. -/
def hex2 (b : ℕ) : String := hexDigit (b / 16 % 16) ++ hexDigit (b % 16)

/-- `get_manufacturer_name`: bank-agnostic direct match first, then the
bank-resolved dict lookup, else the hex `Unknown` marker. -/
def getManufacturerName (first_byte second_byte : ℕ) : String :=
  match findDirect second_byte MANUFACTURERS with
  | some name => name
  | none =>
      let bank_mid := decodeBankId first_byte second_byte
      match MANUFACTURERS.lookup bank_mid with
      | some name => name
      | none => "Unknown (0x" ++ hex2 first_byte ++ hex2 second_byte ++ ")"

/-- The name scan in `get_manufacturer_id`: first entry whose name
matches. -/
def findByName (name : String) : List ((ℕ × ℕ) × String) → Option (ℕ × ℕ)
  | [] => none
  | ((bank, mid), mfr_name) :: rest =>
      if mfr_name = name then some (bank, mid) else findByName name rest

/-- `get_manufacturer_id`: encode a registry name to
`(bank - 1, id | 0x80)`; `(0, 0)` when the name is not found. -/
def getManufacturerId (name : String) : ℕ × ℕ :=
  match findByName name MANUFACTURERS with
  | some (bank, mid) => (if bank > 1 then bank - 1 else 0x00, mid ||| 0x80)
  | none => (0x00, 0x00)

/-- The registry names for which the encode/decode pair does round-trip:
every name whose encoded id byte is first matched, bank-agnostically, by
its own entry. -/
def roundtrippingNames : List String :=
  ["Micron Technology", "Intel", "Samsung", "SK Hynix", "AMD", "Toshiba",
   "Infineon", "STMicroelectronics", "Mitsubishi", "Fujitsu", "Hitachi",
   "Winbond", "Macronix", "SST", "ISSI", "AMIC", "EON",
   "Fudan Microelectronics", "Atmel", "Corsair", "Sharp", "PNY",
   "Transcend", "ELPIDA", "Nanya", "SanDisk", "ESMT", "Qimonda",
   "Apacer", "Kingmax", "Silicon Power", "Mushkin", "A-DATA", "Avant",
   "G.Skill", "Team Group", "Patriot", "GeIL", "Crucial", "Super Talent",
   "Ramaxel", "Spectek", "Aeneon", "ATRM", "Swissbit", "ATP Electronics",
   "ChangXin Memory (CXMT)"]

/-! ## SPD data model (`src/core/model.py`, class `SPDDataModel`)

State: `_data` (the 512-byte image), `_original_data` (the optional
baseline snapshot) and `_modified_bytes` (the dirty set).  Mutators
return the next state together with the list of change events they
notify.  Python's truthiness test `if self._original_data:` is false
both for `None` and for an empty list, which the embeddings reproduce
by matching on `some (o :: os)`. -/

/-- `DataChangeEvent` (only the fields each variant populates). -/
inductive DataChangeEvent where
  | byteChanged (offset oldValue newValue : ℤ)
  | rangeChanged (offset : ℤ) (length : ℕ)
  | dataLoaded
  | dataReset
deriving DecidableEq

/-- The state of an `SPDDataModel` (observer list and file metadata are
irrelevant to the claims and omitted). -/
structure SPDDataModel where
  data : List ℕ
  originalData : Option (List ℕ)
  modifiedBytes : Finset ℕ
deriving DecidableEq

/-- The shared write-one-byte step of `set_byte` and the `set_bytes`
loop: store the value and update the dirty set incrementally (add the
offset if it now differs from the baseline, else discard it); the dirty
set is untouched when no truthy baseline is present. -/
def stepWrite (m : SPDDataModel) (pos : ℕ) (value : ℤ) : SPDDataModel :=
  let data' := m.data.set pos value.toNat
  let modified' :=
    match m.originalData with
    | some (o :: os) =>
        if data'.getD pos 0 ≠ (o :: os).getD pos 0 then insert pos m.modifiedBytes
        else m.modifiedBytes.erase pos
    | _ => m.modifiedBytes
  ⟨data', m.originalData, modified'⟩

/-- `SPDDataModel.set_byte`: validates offset and value (failure leaves
the state unchanged and notifies nothing), returns success with no event
when the value is unchanged, otherwise writes and emits one
`BYTE_CHANGED` event. -/
def setByte (m : SPDDataModel) (offset value : ℤ) :
    SPDDataModel × List DataChangeEvent :=
  if ¬(0 ≤ offset ∧ offset < (SPD_SIZE : ℤ) ∧ 0 ≤ value ∧ value ≤ 255) then (m, [])
  else if ((m.data.getD offset.toNat 0 : ℕ) : ℤ) = value then (m, [])
  else (stepWrite m offset.toNat value,
        [.byteChanged offset ((m.data.getD offset.toNat 0 : ℕ) : ℤ) value])

/-- The write loop of `set_bytes`, after validation has passed. -/
def writeSeq (m : SPDDataModel) (pos : ℕ) : List ℤ → SPDDataModel
  | [] => m
  | v :: rest => writeSeq (stepWrite m pos v) (pos + 1) rest

/-- `SPDDataModel.set_bytes`: validates the whole range and every value
before any mutation (failure leaves the state unchanged and notifies
nothing); on success writes all bytes and emits a single
`RANGE_CHANGED` event. -/
def setBytes (m : SPDDataModel) (offset : ℤ) (values : List ℤ) :
    SPDDataModel × List DataChangeEvent :=
  if offset < 0 ∨ (SPD_SIZE : ℤ) < offset + values.length then (m, [])
  else if ¬(∀ v ∈ values, 0 ≤ v ∧ v ≤ 255) then (m, [])
  else (writeSeq m offset.toNat values, [.rangeChanged offset values.length])

/-- `SPDDataModel.reset_to_original`: fails (unchanged, no event) when
no truthy baseline exists, otherwise restores the image from the
baseline and clears the dirty set. -/
def resetToOriginal (m : SPDDataModel) : SPDDataModel × List DataChangeEvent :=
  match m.originalData with
  | some (o :: os) => (⟨o :: os, m.originalData, ∅⟩, [.dataReset])
  | _ => (m, [])

/-- `SPDDataModel.get_byte`: in-range reads index the image,
out-of-range reads return 0 instead of failing. -/
def getByte (m : SPDDataModel) (offset : ℤ) : ℕ :=
  if 0 ≤ offset ∧ offset < (SPD_SIZE : ℤ) then m.data.getD offset.toNat 0 else 0

/-- A fresh `SPDDataModel.__init__` state: 512 zero bytes, no baseline,
empty dirty set. -/
def initModel : SPDDataModel := ⟨List.replicate SPD_SIZE 0, none, ∅⟩

/-- `SPDDataModel.load_from_list` on a 512-byte list: image and baseline
both become the list, the dirty set is cleared. -/
def loadModel (bytes : List ℕ) : SPDDataModel := ⟨bytes, some bytes, ∅⟩

/-- The mutation calls quantified over by the dirty-set claim. -/
inductive Op where
  | setB (offset value : ℤ)
  | setR (offset : ℤ) (values : List ℤ)
  | reset

/-- Apply one mutation call (state part). -/
def applyOp (m : SPDDataModel) : Op → SPDDataModel
  | .setB offset value => (setByte m offset value).1
  | .setR offset values => (setBytes m offset values).1
  | .reset => (resetToOriginal m).1

/-- Run a sequence of mutation calls. -/
def runOps (m : SPDDataModel) : List Op → SPDDataModel
  | [] => m
  | op :: rest => runOps (applyOp m op) rest

/-- Whether an offset should be dirty: a truthy baseline is present and
the image byte differs from the baseline byte. -/
def dirtyB (m : SPDDataModel) (off : ℕ) : Bool :=
  match m.originalData with
  | some (o :: os) => m.data.getD off 0 != (o :: os).getD off 0
  | _ => false

/-- The dirty-set invariant: an offset is in the modified-bytes set iff
a baseline is present and the image byte differs from the baseline byte
there (stated over the 512 valid offsets, plus the fact that the dirty
set contains only valid offsets). -/
def Inv (m : SPDDataModel) : Prop :=
  (∀ off ∈ Finset.range SPD_SIZE, (off ∈ m.modifiedBytes ↔ dirtyB m off = true)) ∧
  m.modifiedBytes ⊆ Finset.range SPD_SIZE

/-- Structural well-formedness: the image is exactly 512 bytes and so is
any baseline. -/
def WF (m : SPDDataModel) : Prop :=
  m.data.length = SPD_SIZE ∧ ∀ l, m.originalData = some l → l.length = SPD_SIZE

instance (m : SPDDataModel) : Decidable (Inv m) :=
  decidable_of_iff
    ((∀ off ∈ Finset.range SPD_SIZE, (off ∈ m.modifiedBytes ↔ dirtyB m off = true)) ∧
      m.modifiedBytes ⊆ Finset.range SPD_SIZE) Iff.rfl

/-- Boolean form of `WF`, for evaluation on concrete states. -/
def wfB (m : SPDDataModel) : Bool :=
  (m.data.length == SPD_SIZE) &&
    (match m.originalData with
     | some l => l.length == SPD_SIZE
     | none => true)

instance (m : SPDDataModel) : Decidable (WF m) :=
  decidable_of_iff (wfB m = true) (by
    unfold wfB WF
    rcases m.originalData with _ | l <;> simp)

/-! ## XMP profile decoding (`DDR4Parser._parse_xmp_profile`) -/

/-- `XMPProfile` (`src/core/parser/ddr4.py`); sub-timings are cycle
counts. -/
structure XMPProfile where
  enabled : Bool := false
  voltage : ℚ := 0
  frequency : ℤ := 0
  tCK : ℚ := 0
  CL : ℤ := 0
  tRCD : ℤ := 0
  tRP : ℤ := 0
  tRAS : ℤ := 0

/-- The tCK probing loop of `_parse_xmp_profile`: candidates at profile
offsets +3, +2, +1 in order; a raw byte strictly between 0 and 20
updates tCK and frequency; the loop breaks early when the frequency
lands in 1600..6000. -/
def xmpTckLoop (img : Img) (start : ℕ) : List ℕ → ℚ × ℤ → ℚ × ℤ
  | [], st => st
  | o :: rest, st =>
      let tck_mtb := if start + o < SPD_SIZE then img (start + o) else 0
      if 0 < tck_mtb ∧ tck_mtb < 20 then
        let tCK : ℚ := (tck_mtb : ℚ) * (MTB : ℚ) / 1000
        let freq : ℤ := if 0 < tCK then pyInt (2000 / tCK) else 0
        if 1600 ≤ freq ∧ freq ≤ 6000 then (tCK, freq)
        else xmpTckLoop img start rest (tCK, freq)
      else xmpTckLoop img start rest st

/-- `DDR4Parser._parse_xmp_profile` on a 512-byte image: too-short
window or a 0x00/0xFF voltage byte yields the disabled default profile;
otherwise voltage is `1.2V + (byte & 0x3F) * 5mV`, tCK/frequency come
from the probing loop and the frequency is zeroed unless it lies in
1600..6000; CL/tRCD/tRP come from bytes +8/+9/+10 and tRAS from the
nibble-packed bytes +11/+12, each rounded to cycles. -/
def parseXmpProfile (img : Img) (start : ℕ) : XMPProfile :=
  if start + 15 > SPD_SIZE then {}
  else
    let voltage_byte := img start
    if voltage_byte = 0 ∨ voltage_byte = 0xFF then {}
    else
      let voltage : ℚ := 12 / 10 + ((voltage_byte &&& 0x3F : ℕ) : ℚ) * (5 / 1000)
      let st := xmpTckLoop img start [3, 2, 1] (0, 0)
      let tCK := st.1
      let frequency : ℤ :=
        if st.2 < 1600 ∨ st.2 > 6000 then 0 else st.2
      let taa_byte := if start + 8 < SPD_SIZE then img (start + 8) else 0
      let cl : ℤ :=
        if 0 < tCK ∧ 0 < taa_byte then
          pyRound ((taa_byte : ℚ) * (MTB : ℚ) / 1000 / tCK)
        else 0
      let trcd_byte := if start + 9 < SPD_SIZE then img (start + 9) else 0
      let trcd : ℤ :=
        if 0 < tCK ∧ 0 < trcd_byte then
          pyRound ((trcd_byte : ℚ) * (MTB : ℚ) / 1000 / tCK)
        else 0
      let trp_byte := if start + 10 < SPD_SIZE then img (start + 10) else 0
      let trp : ℤ :=
        if 0 < tCK ∧ 0 < trp_byte then
          pyRound ((trp_byte : ℚ) * (MTB : ℚ) / 1000 / tCK)
        else 0
      let tras_upper := if start + 11 < SPD_SIZE then img (start + 11) &&& 0x0F else 0
      let tras_lower := if start + 12 < SPD_SIZE then img (start + 12) else 0
      let tras_mtb := (tras_upper <<< 8) ||| tras_lower
      let tras : ℤ :=
        if 0 < tCK ∧ 0 < tras_mtb then
          pyRound ((tras_mtb : ℚ) * (MTB : ℚ) / 1000 / tCK)
        else 0
      { enabled := true, voltage := voltage, frequency := frequency, tCK := tCK,
        CL := cl, tRCD := trcd, tRP := trp, tRAS := tras }

/-! ## Manufacturing date (`DDR4Parser.parse_manufacturing_date` and the
`manufacturing_date` branch of `DetailsTab._on_field_changed`) -/

/-- `DDR4Parser.parse_manufacturing_date`: bytes 323/324 read as BCD,
with 0x00 and 0xFF year bytes as the unknown sentinel; each BCD digit
is rendered with Python decimal formatting. -/
def parseManufacturingDate (img : Img) : String :=
  let year := img 323
  let week := img 324
  if year = 0 ∨ year = 0xFF then "Unknown"
  else
    let year_str := "20" ++ toString ((year >>> 4) &&& 0x0F) ++ toString (year &&& 0x0F)
    let week_str := toString ((week >>> 4) &&& 0x0F) ++ toString (week &&& 0x0F)
    year_str ++ " Week " ++ week_str

/-- The `manufacturing_date` branch of `DetailsTab._on_field_changed`
for an input in the `YYYY-WNN` format, on its numeric components: the
code computes `year = int(parts[0]) % 100` and `week = int(parts[1])`
and stores both as plain binary bytes via `set_byte` (no BCD
conversion). -/
def encodeManufacturingDate (img : Img) (yyyy week : ℕ) : Img :=
  (img.setByte 323 ((yyyy % 100 : ℕ) : ℤ)).setByte 324 ((week : ℕ) : ℤ)

/-- Claim C8: `decode_bank_id` returns bank 1 and `second_byte & 0x7F`
for every pair of input bytes; the continuation-code handling can never
produce a bank greater than 1. -/
theorem decodeBankId_always_bank_one (first_byte second_byte : ℕ) :
    decodeBankId first_byte second_byte = (1, second_byte &&& 0x7F) ∧
    (decodeBankId first_byte second_byte).1 ≤ 1 := by
  unfold decodeBankId
  split <;> simp

/-- Claim C5, counterexample: "Kingston" is a registry name, but
encoding it and decoding the bytes yields "Toshiba" (the bank-agnostic
direct match hits Bank 1's id 0x98 first). -/
theorem manufacturer_roundtrip_fails_kingston :
    "Kingston" ∈ MANUFACTURERS.map Prod.snd ∧
    getManufacturerName (getManufacturerId "Kingston").1
        (getManufacturerId "Kingston").2 = "Toshiba" ∧
    getManufacturerName (getManufacturerId "Kingston").1
        (getManufacturerId "Kingston").2 ≠ "Kingston" := by
  refine ⟨by decide, by decide, by decide⟩

/-- Claim C5, amended: encode-then-decode returns the original name for
exactly those registry names whose encoded id byte is first matched by
their own entry — the 47 names of `roundtrippingNames`; the other 14
registry names decode to an earlier entry with a colliding id. -/
theorem manufacturer_roundtrip_noncolliding (name : String)
    (h : name ∈ roundtrippingNames) :
    getManufacturerName (getManufacturerId name).1 (getManufacturerId name).2
      = name := by
  fin_cases h <;> decide

/-- Witness for `manufacturer_roundtrip_noncolliding` at "Samsung". -/
theorem manufacturer_roundtrip_noncolliding_witness :
    "Samsung" ∈ roundtrippingNames ∧
    getManufacturerName (getManufacturerId "Samsung").1
        (getManufacturerId "Samsung").2 = "Samsung" :=
  ⟨by decide, manufacturer_roundtrip_noncolliding "Samsung" (by decide)⟩

/-- Claim C4, counterexample: the 1600 MT/s bin is the half-open
interval `[1250, 1500)`, so the integer tCK value 1500 — inside the
claim's closed interval `[625, 1500]` — matches no bin, and
classification falls back to `int(2000000 / 1500) = 1333`, which is
not a table bin value. -/
theorem speed_grade_gap_at_1500 :
    (SPEED_GRADES.filter fun b =>
        decide ((b.1.1 : ℤ) ≤ 1500 ∧ (1500 : ℤ) < (b.1.2 : ℤ))).length = 0 ∧
    parseSpeedGradePs 1500 = 1333 ∧
    (1333 : ℤ) ∉ SPEED_GRADES.map (fun b => (b.2 : ℤ)) := by
  refine ⟨by decide, ?_, by decide⟩
  have hfind : speedGradeLookup 1500 = none := by decide
  unfold parseSpeedGradePs
  rw [if_neg (by norm_num), hfind]
  unfold pyInt
  rw [if_pos (by positivity)]
  rw [show (2000000 / ((1500 : ℤ) : ℚ) : ℚ)
        = ((2000000 : ℤ) : ℚ) / ((1500 : ℕ) : ℚ) by norm_num]
  rw [Rat.floor_intCast_div_natCast]
  decide

/-- Chunk 1 of the amended C4 range, tCK in `[625, 925)`. -/
theorem speed_grade_chunkA : ∀ k : ℕ, k < 300 →
    ((SPEED_GRADES.filter fun b =>
        decide ((b.1.1 : ℤ) ≤ ((625 + k : ℕ) : ℤ) ∧
          ((625 + k : ℕ) : ℤ) < (b.1.2 : ℤ))).length = 1 ∧
     parseSpeedGradePs ((625 + k : ℕ) : ℤ) ∈
       SPEED_GRADES.map fun b => (b.2 : ℤ)) := by
  decide

/-- Chunk 2 of the amended C4 range, tCK in `[925, 1225)`. -/
theorem speed_grade_chunkB : ∀ k : ℕ, k < 300 →
    ((SPEED_GRADES.filter fun b =>
        decide ((b.1.1 : ℤ) ≤ ((925 + k : ℕ) : ℤ) ∧
          ((925 + k : ℕ) : ℤ) < (b.1.2 : ℤ))).length = 1 ∧
     parseSpeedGradePs ((925 + k : ℕ) : ℤ) ∈
       SPEED_GRADES.map fun b => (b.2 : ℤ)) := by
  decide

/-- Chunk 3 of the amended C4 range, tCK in `[1225, 1500)`. -/
theorem speed_grade_chunkC : ∀ k : ℕ, k < 275 →
    ((SPEED_GRADES.filter fun b =>
        decide ((b.1.1 : ℤ) ≤ ((1225 + k : ℕ) : ℤ) ∧
          ((1225 + k : ℕ) : ℤ) < (b.1.2 : ℤ))).length = 1 ∧
     parseSpeedGradePs ((1225 + k : ℕ) : ℤ) ∈
       SPEED_GRADES.map fun b => (b.2 : ℤ)) := by
  decide

/-- Claim C4, amended: every integer tCK in picoseconds in the
half-open interval `[625, 1500)` falls into exactly one bin of the
speed-grade table, and classification of such a tCK returns a table
bin value (never the generic fallback). -/
theorem speed_grade_table_complete (t : ℕ) (h1 : t < 1500) (h2 : 625 ≤ t) :
    (SPEED_GRADES.filter fun b =>
        decide ((b.1.1 : ℤ) ≤ (t : ℤ) ∧ (t : ℤ) < (b.1.2 : ℤ))).length = 1 ∧
    parseSpeedGradePs (t : ℤ) ∈ SPEED_GRADES.map fun b => (b.2 : ℤ) := by
  by_cases ha : t < 925
  · have h := speed_grade_chunkA (t - 625) (by omega)
    have ht : 625 + (t - 625) = t := by omega
    rwa [ht] at h
  · by_cases hb : t < 1225
    · have h := speed_grade_chunkB (t - 925) (by omega)
      have ht : 925 + (t - 925) = t := by omega
      rwa [ht] at h
    · have h := speed_grade_chunkC (t - 1225) (by omega)
      have ht : 1225 + (t - 1225) = t := by omega
      rwa [ht] at h

/-- Witness for `speed_grade_table_complete` at tCK = 1000 ps. -/
theorem speed_grade_table_complete_witness :
    1000 < 1500 ∧ 625 ≤ 1000 ∧
    ((SPEED_GRADES.filter fun b =>
        decide ((b.1.1 : ℤ) ≤ ((1000 : ℕ) : ℤ) ∧
          ((1000 : ℕ) : ℤ) < (b.1.2 : ℤ))).length = 1 ∧
     parseSpeedGradePs ((1000 : ℕ) : ℤ) ∈
       SPEED_GRADES.map fun b => (b.2 : ℤ)) :=
  ⟨by decide, by decide, speed_grade_table_complete 1000 (by decide) (by decide)⟩

lemma stepWrite_WF (m : SPDDataModel) (pos : ℕ) (value : ℤ) (hwf : WF m) :
    WF (stepWrite m pos value) := by
  obtain ⟨h1, h2⟩ := hwf
  refine ⟨by simpa [stepWrite] using h1, fun l hl => h2 l ?_⟩
  simpa [stepWrite] using hl

lemma stepWrite_Inv (m : SPDDataModel) (pos : ℕ) (value : ℤ)
    (hpos : pos < SPD_SIZE) (hinv : Inv m) : Inv (stepWrite m pos value) := by
  obtain ⟨hiff, hsub⟩ := hinv
  constructor
  · intro off hoff
    have h0 := hiff off hoff
    rcases horig : m.originalData with _ | orig
    · simp only [stepWrite, horig]
      simpa [dirtyB, horig] using h0
    · rcases orig with _ | ⟨o, os⟩
      · simp only [stepWrite, horig]
        simpa [dirtyB, horig] using h0
      · by_cases hoe : off = pos
        · subst hoe
          simp only [stepWrite, horig, dirtyB]
          split_ifs with hc
          · exact iff_of_true (Finset.mem_insert_self _ _)
              (by simpa [bne_iff_ne] using hc)
          · exact iff_of_false (Finset.not_mem_erase _ _)
              (by simpa [bne_iff_ne] using hc)
        · have hget : (m.data.set pos value.toNat).getD off 0 = m.data.getD off 0 := by
            simp [List.getD_eq_getElem?_getD,
              List.getElem?_set_ne (fun h => hoe h.symm)]
          simp only [stepWrite, horig, dirtyB] at h0 ⊢
          simp only [hget]
          split_ifs with hc
          · rw [Finset.mem_insert, or_iff_right hoe]
            simpa [dirtyB, horig] using h0
          · rw [Finset.mem_erase, and_iff_right hoe]
            simpa [dirtyB, horig] using h0
  · rcases horig : m.originalData with _ | orig
    · simpa [stepWrite, horig] using hsub
    · rcases orig with _ | ⟨o, os⟩
      · simpa [stepWrite, horig] using hsub
      · simp only [stepWrite, horig]
        split_ifs with hc
        · exact Finset.insert_subset (Finset.mem_range.mpr hpos) hsub
        · exact (Finset.erase_subset _ _).trans hsub

lemma writeSeq_preserves : ∀ (values : List ℤ) (m : SPDDataModel) (pos : ℕ),
    pos + values.length ≤ SPD_SIZE → WF m → Inv m →
    WF (writeSeq m pos values) ∧ Inv (writeSeq m pos values)
  | [], _, _, _, hwf, hinv => ⟨hwf, hinv⟩
  | v :: rest, m, pos, hle, hwf, hinv => by
      have hpos : pos < SPD_SIZE := by
        simp only [List.length_cons] at hle
        omega
      exact writeSeq_preserves rest (stepWrite m pos v) (pos + 1)
        (by simp only [List.length_cons] at hle; omega)
        (stepWrite_WF m pos v hwf) (stepWrite_Inv m pos v hpos hinv)

lemma applyOp_preserves (m : SPDDataModel) (op : Op) (hwf : WF m) (hinv : Inv m) :
    WF (applyOp m op) ∧ Inv (applyOp m op) := by
  cases op with
  | setB offset value =>
    simp only [applyOp, setByte]
    split_ifs with h1 h2
    all_goals try exact ⟨hwf, hinv⟩
    all_goals push_neg at h1
    all_goals have hpos : offset.toNat < SPD_SIZE := by omega
    all_goals exact ⟨stepWrite_WF m offset.toNat value hwf,
      stepWrite_Inv m offset.toNat value hpos hinv⟩
  | setR offset values =>
    simp only [applyOp, setBytes]
    split_ifs with h1 h2
    all_goals try exact ⟨hwf, hinv⟩
    all_goals push_neg at h1
    all_goals exact writeSeq_preserves values m offset.toNat (by omega) hwf hinv
  | reset =>
    simp only [applyOp, resetToOriginal]
    rcases horig : m.originalData with _ | orig
    · exact ⟨hwf, hinv⟩
    · rcases orig with _ | ⟨o, os⟩
      · exact ⟨hwf, hinv⟩
      · refine ⟨⟨hwf.2 _ horig, fun l hl => hwf.2 l (horig ▸ hl)⟩, ?_, by simp⟩
        intro off _
        simp [dirtyB]

/-- Claim C2: along every sequence of `set_byte` / `set_bytes` /
`reset_to_original` calls starting from a state satisfying the
dirty-set invariant (in particular a fresh or freshly loaded model),
every reachable state satisfies it: an offset is in the modified-bytes
set iff a baseline is present and the image byte there differs from the
baseline byte. -/
theorem dirty_set_invariant (m : SPDDataModel) (ops : List Op)
    (hwf : WF m) (hinv : Inv m) : Inv (runOps m ops) := by
  induction ops generalizing m with
  | nil => exact hinv
  | cons op rest ih =>
    have h := applyOp_preserves m op hwf hinv
    exact ih (applyOp m op) h.1 h.2

lemma WF_loadModel (bytes : List ℕ) (h : bytes.length = SPD_SIZE) :
    WF (loadModel bytes) := by
  refine ⟨h, fun l hl => ?_⟩
  simp only [loadModel, Option.some.injEq] at hl
  rw [← hl]
  exact h

lemma Inv_loadModel (bytes : List ℕ) : Inv (loadModel bytes) := by
  constructor
  · intro off _
    rcases bytes with _ | ⟨b, bs⟩ <;> simp [loadModel, dirtyB]
  · simp [loadModel]

/-- Witness for `dirty_set_invariant`: a freshly loaded all-zero model
run through a byte write, a range write and a reset. -/
theorem dirty_set_invariant_witness :
    (WF (loadModel (List.replicate SPD_SIZE 0)) ∧
     Inv (loadModel (List.replicate SPD_SIZE 0))) ∧
    Inv (runOps (loadModel (List.replicate SPD_SIZE 0))
      [.setB 3 7, .setR 10 [1, 2], .reset]) :=
  ⟨⟨WF_loadModel _ (by simp), Inv_loadModel _⟩,
    dirty_set_invariant _ _ (WF_loadModel _ (by simp)) (Inv_loadModel _)⟩

/-- Claim C3: `set_bytes` is atomic — when the range is out of bounds
or any value is outside 0..255 it returns with the whole state (image
and dirty set) unchanged and no event, applying no prefix of the
values; when it succeeds it emits exactly one `RANGE_CHANGED` event. -/
theorem set_bytes_atomic (m : SPDDataModel) (offset : ℤ) (values : List ℤ) :
    ((offset < 0 ∨ (SPD_SIZE : ℤ) < offset + values.length ∨
        ∃ v ∈ values, ¬(0 ≤ v ∧ v ≤ 255)) →
      setBytes m offset values = (m, [])) ∧
    ((0 ≤ offset ∧ offset + values.length ≤ (SPD_SIZE : ℤ) ∧
        (∀ v ∈ values, 0 ≤ v ∧ v ≤ 255)) →
      (setBytes m offset values).2 = [.rangeChanged offset values.length]) := by
  constructor
  · intro h
    unfold setBytes
    by_cases hr : offset < 0 ∨ (SPD_SIZE : ℤ) < offset + values.length
    · rw [if_pos hr]
    · rcases h with h | h | h
      · exact absurd (Or.inl h) hr
      · exact absurd (Or.inr h) hr
      · rw [if_neg hr, if_pos]
        intro hall
        obtain ⟨v, hv, hnv⟩ := h
        exact hnv (hall v hv)
  · rintro ⟨h1, h2, h3⟩
    unfold setBytes
    rw [if_neg (by omega), if_neg (not_not_intro h3)]

/-- Witness for `set_bytes_atomic`: a 3-byte write at offset 510 runs
out of bounds and leaves the loaded model untouched. -/
theorem set_bytes_atomic_witness :
    ((510 : ℤ) < 0 ∨ (SPD_SIZE : ℤ) < 510 + ([1, 2, 3] : List ℤ).length ∨
      ∃ v ∈ ([1, 2, 3] : List ℤ), ¬(0 ≤ v ∧ v ≤ 255)) ∧
    setBytes (loadModel (List.replicate SPD_SIZE 0)) 510 [1, 2, 3] =
      (loadModel (List.replicate SPD_SIZE 0), []) :=
  ⟨Or.inr (Or.inl (by norm_num [SPD_SIZE])),
    (set_bytes_atomic _ 510 [1, 2, 3]).1
      (Or.inr (Or.inl (by norm_num [SPD_SIZE])))⟩

/-- Claim C10: `get_byte` never signals an error; for every offset
outside 0..511 it returns 0, indistinguishable from reading a genuinely
zero byte. -/
theorem get_byte_out_of_range_zero (m : SPDDataModel) (offset : ℤ)
    (h : offset < 0 ∨ (SPD_SIZE : ℤ) ≤ offset) : getByte m offset = 0 := by
  unfold getByte
  rw [if_neg (by omega)]

/-- Witness for `get_byte_out_of_range_zero` at offset 600. -/
theorem get_byte_out_of_range_zero_witness :
    ((600 : ℤ) < 0 ∨ (SPD_SIZE : ℤ) ≤ 600) ∧ getByte initModel 600 = 0 :=
  ⟨Or.inr (by norm_num [SPD_SIZE]),
    get_byte_out_of_range_zero initModel 600 (Or.inr (by norm_num [SPD_SIZE]))⟩

lemma nibA1 : ∀ c < 256, ∀ h < 16, ((c &&& 0xF0) ||| h) ≤ 255 := by decide

lemma nibA2 : ∀ c < 256, ∀ h < 16, (((c &&& 0xF0) ||| h) &&& 0x0F) = h ∧
    (((c &&& 0xF0) ||| h) &&& 0xF0) = c &&& 0xF0 := by decide

lemma nibB1 : ∀ c < 256, ∀ h < 16, ((c &&& 0x0F) ||| (h <<< 4)) ≤ 255 := by decide

lemma nibB2 : ∀ c < 256, ∀ h < 16, (((c &&& 0x0F) ||| (h <<< 4)) >>> 4) = h ∧
    (((c &&& 0x0F) ||| (h <<< 4)) &&& 0x0F) = c &&& 0x0F := by decide

lemma div_mod_cast_eq (n : ℕ) :
    ((n / 125 : ℕ) : ℚ) * 125 + ((n % 125 : ℕ) : ℚ) = (n : ℚ) := by
  have hdm : (125 * (n / 125) + n % 125 : ℕ) = n := Nat.div_add_mod n 125
  have h2 : ((125 * (n / 125) + n % 125 : ℕ) : ℚ) = (n : ℚ) := by
    exact_mod_cast congrArg (Nat.cast : ℕ → ℚ) hdm
  push_cast at h2
  linarith

lemma encMtb_eq (x : ℚ) (n : ℕ) (hx : x * 1000 = n) :
    encMtb x = ((n / 125 : ℕ) : ℤ) := by
  unfold encMtb pyInt MTB
  rw [hx]
  rw [if_pos (by positivity)]
  rw [show ((n : ℚ)) = (((n : ℤ)) : ℚ) by push_cast; ring]
  rw [Rat.floor_intCast_div_natCast]
  exact (Int.natCast_div n 125).symm

lemma encFtb0_eq (x : ℚ) (n : ℕ) (hx : x * 1000 = n) :
    encFtb0 x = ((n % 125 : ℕ) : ℤ) := by
  unfold encFtb0
  rw [encMtb_eq x n hx, hx]
  have hrem : (n : ℚ) - ((((n / 125 : ℕ) : ℤ)) : ℚ) * (MTB : ℚ)
      = ((n % 125 : ℕ) : ℚ) := by
    rw [Int.cast_natCast, show ((MTB : ℕ) : ℚ) = 125 by norm_num [MTB]]
    have hval := div_mod_cast_eq n
    linarith
  rw [hrem]
  rw [show ((FTB : ℕ) : ℚ) = 1 by norm_num [FTB], div_one]
  unfold pyInt
  rw [if_pos (by positivity)]
  exact Int.floor_natCast _

lemma encFtbByte_eq (x : ℚ) (n : ℕ) (hx : x * 1000 = n) :
    encFtbByte x = ((n % 125 : ℕ) : ℤ) := by
  have h0 := encFtb0_eq x n hx
  unfold encFtbByte encFtbWrapped
  rw [h0]
  rw [if_neg (by omega), if_neg (by omega)]
  omega

lemma encFtbByte_bounds (x : ℚ) : 0 ≤ encFtbByte x ∧ encFtbByte x ≤ 255 := by
  unfold encFtbByte
  constructor
  · exact Int.emod_nonneg _ (by norm_num)
  · have := Int.emod_lt_of_pos (encFtbWrapped x) (by norm_num : (0 : ℤ) < 256)
    omega

lemma Img.setByte_eval (img : Img) (off : ℕ) (v : ℤ) (h1 : off < SPD_SIZE)
    (h2 : 0 ≤ v) (h3 : v ≤ 255) (i : ℕ) :
    (img.setByte off v) i = if i = off then v.toNat else img i := by
  unfold Img.setByte
  rw [if_pos ⟨h1, h2, h3⟩]

lemma Img.getByte_eval (img : Img) (off : ℕ) (h : off < SPD_SIZE) :
    img.getByte off = img off := by
  unfold Img.getByte
  rw [if_pos h]

lemma simple_field_roundtrip (img : Img) (x : ℚ) (n : ℕ) (mo fo : ℕ)
    (hx : x * 1000 = n) (hmax : n / 125 ≤ 255)
    (hmo : mo < SPD_SIZE) (hfo : fo < SPD_SIZE) (hne : fo ≠ mo) :
    ((((img.setByte mo (encMtb x)).setByte fo (encFtbByte x)) mo : ℚ) * (MTB : ℚ)
      + (signedByte (((img.setByte mo (encMtb x)).setByte fo (encFtbByte x)) fo) : ℚ)
        * (FTB : ℚ)) / 1000 = x := by
  have hmtb := encMtb_eq x n hx
  have hftb := encFtbByte_eq x n hx
  have emo : ((img.setByte mo (encMtb x)).setByte fo (encFtbByte x)) mo = n / 125 := by
    rw [Img.setByte_eval _ _ _ hfo (by rw [hftb]; exact Int.natCast_nonneg _)
      (by rw [hftb]; omega)]
    rw [if_neg fun hh => hne hh.symm]
    rw [Img.setByte_eval _ _ _ hmo (by rw [hmtb]; exact Int.natCast_nonneg _)
      (by rw [hmtb]; exact_mod_cast hmax)]
    rw [if_pos rfl, hmtb]
    exact Int.toNat_natCast _
  have efo : ((img.setByte mo (encMtb x)).setByte fo (encFtbByte x)) fo = n % 125 := by
    rw [Img.setByte_eval _ _ _ hfo (by rw [hftb]; exact Int.natCast_nonneg _)
      (by rw [hftb]; omega)]
    rw [if_pos rfl, hftb]
    exact Int.toNat_natCast _
  rw [emo, efo]
  have hsb : signedByte (n % 125) = ((n % 125 : ℕ) : ℤ) := by
    unfold signedByte
    rw [if_pos (by omega)]
  rw [hsb]
  have hval := div_mod_cast_eq n
  rw [Int.cast_natCast,
    show ((MTB : ℕ) : ℚ) = 125 by norm_num [MTB],
    show ((FTB : ℕ) : ℚ) = 1 by norm_num [FTB]]
  rw [div_eq_iff (by norm_num : (1000 : ℚ) ≠ 0)]
  linarith [hx, hval]

/-- Claim C1: for every timing field handled by `_write_timing` and
every nonnegative value `x` ns whose total picoseconds is an integer
that fits the field (for `tRAS`, which has no fine byte, additionally
on the 125-ps MTB grid), encoding `x` into the image and decoding the
written bytes with `parse_timings` yields `x` exactly.  This covers
both halves of the claim: MTB-grid values for every field, and values
with an integer fine remainder for the fields with a fine byte. -/
theorem timing_encode_decode_roundtrip (key : TKey) (img : Img) (x : ℚ)
    (h27 : img 27 < 256)
    (h : ∃ n : ℕ, x * 1000 = n ∧ n / 125 ≤ maxMtb key ∧
          (hasFtb key = false → n % 125 = 0)) :
    parseTiming key (writeTiming key x img) = x := by
  obtain ⟨n, hx, hmax, hgrid⟩ := h
  have hmtb := encMtb_eq x n hx
  cases key with
  | tCK =>
    exact simple_field_roundtrip img x n 18 125 hx (by simpa [maxMtb] using hmax)
      (by norm_num [SPD_SIZE]) (by norm_num [SPD_SIZE]) (by norm_num)
  | tAA =>
    exact simple_field_roundtrip img x n 24 123 hx (by simpa [maxMtb] using hmax)
      (by norm_num [SPD_SIZE]) (by norm_num [SPD_SIZE]) (by norm_num)
  | tRCD =>
    exact simple_field_roundtrip img x n 25 122 hx (by simpa [maxMtb] using hmax)
      (by norm_num [SPD_SIZE]) (by norm_num [SPD_SIZE]) (by norm_num)
  | tRP =>
    exact simple_field_roundtrip img x n 26 121 hx (by simpa [maxMtb] using hmax)
      (by norm_num [SPD_SIZE]) (by norm_num [SPD_SIZE]) (by norm_num)
  | tRAS =>
    simp only [maxMtb] at hmax
    have hdiv : n % 125 = 0 := hgrid rfl
    have hc27 : img.getByte 27 = img 27 := Img.getByte_eval img 27 (by norm_num [SPD_SIZE])
    have hhn : ((encMtb x / 256) % 16).toNat = n / 125 / 256 := by
      rw [hmtb]; omega
    have hlb : (encMtb x % 256).toNat = n / 125 % 256 := by
      rw [hmtb]; omega
    have hhn16 : n / 125 / 256 < 16 := by omega
    have hA1 := nibA1 (img 27) h27 (n / 125 / 256) hhn16
    have hA2 := nibA2 (img 27) h27 (n / 125 / 256) hhn16
    have hw : writeTiming .tRAS x img
        = (img.setByte 27 ((((img 27 &&& 0xF0) ||| (n / 125 / 256) : ℕ)) : ℤ)).setByte 28
            ((n / 125 % 256 : ℕ) : ℤ) := by
      show (img.setByte 27 (((img.getByte 27 &&& 0xF0) |||
          ((encMtb x / 256) % 16).toNat : ℕ) : ℤ)).setByte 28
          (((encMtb x % 256).toNat : ℕ) : ℤ) = _
      rw [hc27, hhn, hlb]
    have e27 : ((img.setByte 27 ((((img 27 &&& 0xF0) ||| (n / 125 / 256) : ℕ)) : ℤ)).setByte 28
        ((n / 125 % 256 : ℕ) : ℤ)) 27 = (img 27 &&& 0xF0) ||| (n / 125 / 256) := by
      rw [Img.setByte_eval _ 28 _ (by norm_num [SPD_SIZE]) (Int.natCast_nonneg _) (by
        exact_mod_cast (by omega : n / 125 % 256 ≤ 255))]
      rw [if_neg (by norm_num)]
      rw [Img.setByte_eval _ 27 _ (by norm_num [SPD_SIZE]) (Int.natCast_nonneg _)
        (by exact_mod_cast hA1)]
      rw [if_pos rfl]
      exact Int.toNat_natCast _
    have e28 : ((img.setByte 27 ((((img 27 &&& 0xF0) ||| (n / 125 / 256) : ℕ)) : ℤ)).setByte 28
        ((n / 125 % 256 : ℕ) : ℤ)) 28 = n / 125 % 256 := by
      rw [Img.setByte_eval _ 28 _ (by norm_num [SPD_SIZE]) (Int.natCast_nonneg _) (by
        exact_mod_cast (by omega : n / 125 % 256 ≤ 255))]
      rw [if_pos rfl]
      exact Int.toNat_natCast _
    rw [show parseTiming .tRAS (writeTiming .tRAS x img)
        = ((((writeTiming .tRAS x img) 27 &&& 0x0F) <<< 8)
            + (writeTiming .tRAS x img) 28 : ℚ) * (MTB : ℚ) / 1000 from rfl]
    rw [hw, e27, e28]
    have hnat : ((((img 27 &&& 0xF0) ||| (n / 125 / 256)) &&& 0x0F) <<< 8)
        + n / 125 % 256 = n / 125 := by
      rw [hA2.1, Nat.shiftLeft_eq, show (2 : ℕ) ^ 8 = 256 by norm_num]
      omega
    have hnatQ : ((((((img 27 &&& 0xF0) ||| (n / 125 / 256)) &&& 0x0F) <<< 8) : ℕ) : ℚ)
        + ((n / 125 % 256 : ℕ) : ℚ) = ((n / 125 : ℕ) : ℚ) := by
      exact_mod_cast congrArg (Nat.cast : ℕ → ℚ) hnat
    rw [hnatQ]
    have hmul : (n / 125) * 125 = n := Nat.div_mul_cancel (Nat.dvd_of_mod_eq_zero hdiv)
    have hcast : ((n / 125 : ℕ) : ℚ) * 125 = (n : ℚ) := by
      exact_mod_cast congrArg (Nat.cast : ℕ → ℚ) hmul
    rw [show ((MTB : ℕ) : ℚ) = 125 by norm_num [MTB]]
    rw [div_eq_iff (by norm_num : (1000 : ℚ) ≠ 0)]
    linarith [hx, hcast]
  | tRC =>
    simp only [maxMtb] at hmax
    have hftb := encFtbByte_eq x n hx
    have hc27 : img.getByte 27 = img 27 := Img.getByte_eval img 27 (by norm_num [SPD_SIZE])
    have hhn : ((encMtb x / 256) % 16).toNat = n / 125 / 256 := by
      rw [hmtb]; omega
    have hlb : (encMtb x % 256).toNat = n / 125 % 256 := by
      rw [hmtb]; omega
    have hhn16 : n / 125 / 256 < 16 := by omega
    have hB1 := nibB1 (img 27) h27 (n / 125 / 256) hhn16
    have hB2 := nibB2 (img 27) h27 (n / 125 / 256) hhn16
    have hw : writeTiming .tRC x img
        = ((img.setByte 27 ((((img 27 &&& 0x0F) ||| ((n / 125 / 256) <<< 4) : ℕ)) : ℤ)).setByte 29
            ((n / 125 % 256 : ℕ) : ℤ)).setByte 120 ((n % 125 : ℕ) : ℤ) := by
      show ((img.setByte 27 (((img.getByte 27 &&& 0x0F) |||
          (((encMtb x / 256) % 16).toNat <<< 4) : ℕ) : ℤ)).setByte 29
          (((encMtb x % 256).toNat : ℕ) : ℤ)).setByte 120 (encFtbByte x) = _
      rw [hc27, hhn, hlb, hftb]
    have e27 : (((img.setByte 27 ((((img 27 &&& 0x0F) ||| ((n / 125 / 256) <<< 4) : ℕ)) : ℤ)).setByte 29
        ((n / 125 % 256 : ℕ) : ℤ)).setByte 120 ((n % 125 : ℕ) : ℤ)) 27
        = (img 27 &&& 0x0F) ||| ((n / 125 / 256) <<< 4) := by
      rw [Img.setByte_eval _ 120 _ (by norm_num [SPD_SIZE]) (Int.natCast_nonneg _)
        (by exact_mod_cast (by omega : n % 125 ≤ 255))]
      rw [if_neg (by norm_num)]
      rw [Img.setByte_eval _ 29 _ (by norm_num [SPD_SIZE]) (Int.natCast_nonneg _) (by
        exact_mod_cast (by omega : n / 125 % 256 ≤ 255))]
      rw [if_neg (by norm_num)]
      rw [Img.setByte_eval _ 27 _ (by norm_num [SPD_SIZE]) (Int.natCast_nonneg _)
        (by exact_mod_cast hB1)]
      rw [if_pos rfl]
      exact Int.toNat_natCast _
    have e29 : (((img.setByte 27 ((((img 27 &&& 0x0F) ||| ((n / 125 / 256) <<< 4) : ℕ)) : ℤ)).setByte 29
        ((n / 125 % 256 : ℕ) : ℤ)).setByte 120 ((n % 125 : ℕ) : ℤ)) 29 = n / 125 % 256 := by
      rw [Img.setByte_eval _ 120 _ (by norm_num [SPD_SIZE]) (Int.natCast_nonneg _)
        (by exact_mod_cast (by omega : n % 125 ≤ 255))]
      rw [if_neg (by norm_num)]
      rw [Img.setByte_eval _ 29 _ (by norm_num [SPD_SIZE]) (Int.natCast_nonneg _) (by
        exact_mod_cast (by omega : n / 125 % 256 ≤ 255))]
      rw [if_pos rfl]
      exact Int.toNat_natCast _
    have e120 : (((img.setByte 27 ((((img 27 &&& 0x0F) ||| ((n / 125 / 256) <<< 4) : ℕ)) : ℤ)).setByte 29
        ((n / 125 % 256 : ℕ) : ℤ)).setByte 120 ((n % 125 : ℕ) : ℤ)) 120 = n % 125 := by
      rw [Img.setByte_eval _ 120 _ (by norm_num [SPD_SIZE]) (Int.natCast_nonneg _)
        (by exact_mod_cast (by omega : n % 125 ≤ 255))]
      rw [if_pos rfl]
      exact Int.toNat_natCast _
    rw [show parseTiming .tRC (writeTiming .tRC x img)
        = (((((writeTiming .tRC x img) 27 >>> 4) <<< 8)
              + (writeTiming .tRC x img) 29 : ℚ) * (MTB : ℚ)
            + (signedByte ((writeTiming .tRC x img) 120) : ℚ) * (FTB : ℚ)) / 1000 from rfl]
    rw [hw, e27, e29, e120]
    have hnat : ((((img 27 &&& 0x0F) ||| ((n / 125 / 256) <<< 4)) >>> 4) <<< 8)
        + n / 125 % 256 = n / 125 := by
      rw [hB2.1, Nat.shiftLeft_eq, show (2 : ℕ) ^ 8 = 256 by norm_num]
      omega
    have hnatQ : (((((((img 27 &&& 0x0F) ||| ((n / 125 / 256) <<< 4)) >>> 4) <<< 8) : ℕ) : ℚ))
        + ((n / 125 % 256 : ℕ) : ℚ) = ((n / 125 : ℕ) : ℚ) := by
      exact_mod_cast congrArg (Nat.cast : ℕ → ℚ) hnat
    rw [hnatQ]
    have hsb : signedByte (n % 125) = ((n % 125 : ℕ) : ℤ) := by
      unfold signedByte
      rw [if_pos (by omega)]
    rw [hsb]
    have hval := div_mod_cast_eq n
    rw [Int.cast_natCast,
      show ((MTB : ℕ) : ℚ) = 125 by norm_num [MTB],
      show ((FTB : ℕ) : ℚ) = 1 by norm_num [FTB]]
    rw [div_eq_iff (by norm_num : (1000 : ℚ) ≠ 0)]
    linarith [hx, hval]

/-- Witness for `timing_encode_decode_roundtrip`: writing tCK = 10 ns to
an all-zero image and decoding it returns 10 ns. -/
theorem timing_encode_decode_roundtrip_witness :
    ((fun _ => 0 : Img) 27 < 256 ∧
      (∃ n : ℕ, (10 : ℚ) * 1000 = n ∧ n / 125 ≤ maxMtb .tCK ∧
        (hasFtb .tCK = false → n % 125 = 0))) ∧
    parseTiming .tCK (writeTiming .tCK 10 (fun _ => 0)) = 10 :=
  ⟨⟨by norm_num, ⟨10000, by norm_num, by norm_num [maxMtb], by simp [hasFtb]⟩⟩,
    timing_encode_decode_roundtrip .tCK (fun _ => 0) 10 (by norm_num)
      ⟨10000, by norm_num, by norm_num [maxMtb], by simp [hasFtb]⟩⟩

/-- Claim C6: for every image (with a valid byte at offset 27) and
every nanosecond value written, encoding `tRAS` leaves bits [7:4] of
the shared byte 27 (tRC's high nibble) unchanged, and encoding `tRC`
leaves bits [3:0] of the same byte (tRAS's high nibble) unchanged. -/
theorem shared_byte_nibble_preserved (img : Img) (x : ℚ) (h27 : img 27 < 256) :
    (writeTiming .tRAS x img) 27 &&& 0xF0 = img 27 &&& 0xF0 ∧
    (writeTiming .tRC x img) 27 &&& 0x0F = img 27 &&& 0x0F := by
  have hc27 : img.getByte 27 = img 27 := Img.getByte_eval img 27 (by norm_num [SPD_SIZE])
  have hhn16 : ((encMtb x / 256) % 16).toNat < 16 := by omega
  constructor
  · have hA1 := nibA1 (img 27) h27 _ hhn16
    have hA2 := nibA2 (img 27) h27 _ hhn16
    show ((img.setByte 27 (((img.getByte 27 &&& 0xF0) |||
        ((encMtb x / 256) % 16).toNat : ℕ) : ℤ)).setByte 28
        (((encMtb x % 256).toNat : ℕ) : ℤ)) 27 &&& 0xF0 = img 27 &&& 0xF0
    rw [hc27]
    rw [Img.setByte_eval _ 28 _ (by norm_num [SPD_SIZE]) (Int.natCast_nonneg _)
      (by exact_mod_cast (by omega : (encMtb x % 256).toNat ≤ 255))]
    rw [if_neg (by norm_num)]
    rw [Img.setByte_eval _ 27 _ (by norm_num [SPD_SIZE]) (Int.natCast_nonneg _)
      (by exact_mod_cast hA1)]
    rw [if_pos rfl, Int.toNat_natCast]
    exact hA2.2
  · have hB1 := nibB1 (img 27) h27 _ hhn16
    have hB2 := nibB2 (img 27) h27 _ hhn16
    show (((img.setByte 27 (((img.getByte 27 &&& 0x0F) |||
        (((encMtb x / 256) % 16).toNat <<< 4) : ℕ) : ℤ)).setByte 29
        (((encMtb x % 256).toNat : ℕ) : ℤ)).setByte 120 (encFtbByte x)) 27 &&& 0x0F
        = img 27 &&& 0x0F
    rw [hc27]
    rw [Img.setByte_eval _ 120 _ (by norm_num [SPD_SIZE]) (encFtbByte_bounds x).1
      (encFtbByte_bounds x).2]
    rw [if_neg (by norm_num)]
    rw [Img.setByte_eval _ 29 _ (by norm_num [SPD_SIZE]) (Int.natCast_nonneg _)
      (by exact_mod_cast (by omega : (encMtb x % 256).toNat ≤ 255))]
    rw [if_neg (by norm_num)]
    rw [Img.setByte_eval _ 27 _ (by norm_num [SPD_SIZE]) (Int.natCast_nonneg _)
      (by exact_mod_cast hB1)]
    rw [if_pos rfl, Int.toNat_natCast]
    exact hB2.2

/-- Witness for `shared_byte_nibble_preserved` on an image whose byte 27
is 0xAB, writing 35 ns. -/
theorem shared_byte_nibble_preserved_witness :
    ((fun _ => 0xAB : Img) 27 < 256) ∧
    ((writeTiming .tRAS 35 (fun _ => 0xAB)) 27 &&& 0xF0
        = (fun _ => 0xAB : Img) 27 &&& 0xF0 ∧
     (writeTiming .tRC 35 (fun _ => 0xAB)) 27 &&& 0x0F
        = (fun _ => 0xAB : Img) 27 &&& 0x0F) :=
  ⟨by norm_num, shared_byte_nibble_preserved (fun _ => 0xAB) 35 (by norm_num)⟩

lemma parseXmpProfile_frequency_eq (img : Img) (start : ℕ)
    (h1 : ¬(start + 15 > SPD_SIZE)) (h2 : ¬(img start = 0 ∨ img start = 0xFF)) :
    (parseXmpProfile img start).frequency =
      if (xmpTckLoop img start [3, 2, 1] (0, 0)).2 < 1600 ∨
          (xmpTckLoop img start [3, 2, 1] (0, 0)).2 > 6000 then 0
      else (xmpTckLoop img start [3, 2, 1] (0, 0)).2 := by
  unfold parseXmpProfile
  rw [if_neg h1, if_neg h2]

/-- Claim C9: for every 512-byte image and every profile window, the
XMP profile decoder produces a frequency that is either 0 or within
1600..6000 MT/s — the final clamp zeroes every frequency outside that
range, and disabled or out-of-window profiles default to 0. -/
theorem xmp_profile_frequency_in_range (img : Img) (start : ℕ) :
    (parseXmpProfile img start).frequency = 0 ∨
    (1600 ≤ (parseXmpProfile img start).frequency ∧
     (parseXmpProfile img start).frequency ≤ 6000) := by
  by_cases h1 : start + 15 > SPD_SIZE
  · left
    unfold parseXmpProfile
    rw [if_pos h1]
  · by_cases h2 : img start = 0 ∨ img start = 0xFF
    · left
      unfold parseXmpProfile
      rw [if_neg h1, if_pos h2]
    · rw [parseXmpProfile_frequency_eq img start h1 h2]
      split_ifs with h3
      · exact Or.inl rfl
      · push_neg at h3
        exact Or.inr ⟨by omega, by omega⟩

/-- Claim C7: the date encoder stores `year % 100` and `week` as plain
binary bytes, but the decoder reads them as BCD, so the round-trip
fails: encoding year 2023, week 26 (the `2023-W26` input) writes bytes
23 and 26, which decode to "2017 Week 110" instead of "2023 Week 26". -/
theorem manufacturing_date_binary_not_bcd :
    parseManufacturingDate (encodeManufacturingDate (fun _ => 0) 2023 26)
      = "2017 Week 110" ∧
    parseManufacturingDate (encodeManufacturingDate (fun _ => 0) 2023 26)
      ≠ "2023 Week 26" := by
  constructor <;> decide

end SPDTools
